import Mathlib

/-!
Verification development for the tensor record store of the
leaf-cell-polarisation-tensors repository (`scripts/tensor.py`).

The Python module manages `Tensor` objects (mutable dictionaries of fields),
a `TensorManager` that is a `dict` from tensor id to `Tensor` object, a
linear command history with undo/redo (`Command`, `run_command`, `undo`,
`redo`), an audit log (`write_audit_log`, `apply_json`, `apply_audit_log`)
and a baseline snapshot (`write_raw_tensors`, `read_raw_tensors`).

Modelling choices, each traceable to the source:

* Python `Tensor` objects are mutable and shared by reference: a `Command`
  built by `inactivate_tensor`/`update_centroid`/`update_marker` stores the
  *bound method* `tensor.update` of the object looked up at issue time.  We
  therefore model an explicit object heap (`TensorManager.heap`, a list of
  `Tensor` values indexed by allocation order); the dict part of the manager
  (`TensorManager.store`) maps a tensor id to a heap reference, and update
  commands carry the heap reference they were bound to.
* `Tensor._data` is a dict with the fixed keys `tensor_id`, `centroid`,
  `marker`, `creation_type`, `active` (in that insertion order); we model it
  as a structure and record the json key order in `Tensor.jsonKeys`.
* Coordinates are modelled as `List Int` (the source stores `list(centroid)`
  and never inspects the numbers).
* Operations that can raise in Python (`KeyError` on a missing id,
  `ValueError` from `max([])`, `IndexError` from list indexing,
  `RuntimeError` in `apply_json`) return `Option`/`Except`; the raise always
  happens before any mutation in the source, so a `none`/`.error` result
  carries no successor state.
* Python's negative list indexing and slicing are modelled by `pyGet` and
  `pyTake`.
-/

namespace LeafTensors

/-- Coordinate pair (stored as a Python list in the source). -/
abbrev Pos := List Int

/-- The fixed field set of `Tensor._data` (see `Tensor.__init__`). -/
structure Tensor where
  tensor_id : Nat
  centroid : Pos
  marker : Pos
  creation_type : String
  active : Bool
deriving DecidableEq, Repr

instance : Inhabited Tensor := ⟨⟨0, [], [], "", true⟩⟩

/-- Keys of the json object produced by `Tensor.json` (`json.dumps(self._data)`),
in the insertion order of `Tensor.__init__`. -/
def Tensor.jsonKeys : List String :=
  ["tensor_id", "centroid", "marker", "creation_type", "active"]

/-- A single-field assignment, as passed to `Tensor.update(name, value)`.
The source only ever calls `update` with these three field names. -/
inductive TField where
  | centroidF : Pos → TField
  | markerF : Pos → TField
  | activeF : Bool → TField
deriving DecidableEq, Repr

/-- Effect of `Tensor.update` / `self._data[name] = value` on the field data. -/
def Tensor.setField : Tensor → TField → Tensor
  | t, .centroidF v => { t with centroid := v }
  | t, .markerF v => { t with marker := v }
  | t, .activeF b => { t with active := b }

/-- A parsed audit-log line: a json dict with an `action` key.
`create` lines carry the full tensor data (as emitted by `create_tensor`),
`update` lines carry `tensor_id` plus one field/value pair (as emitted by
`Tensor.update`), and `other s` stands for a line whose `action` value is
the string `s`, for lines that are neither creates nor updates. -/
inductive Entry where
  | create : Tensor → Entry
  | update : Nat → TField → Entry
  | other : String → Entry
deriving DecidableEq, Repr

/-- Forward operation of a `Command` (`do_method` with its `do_args`):
either the bound method `self.create_tensor` of the manager, or the bound
method `tensor.update` of a specific heap object. -/
inductive DoAct where
  | createT : Nat → Pos → Pos → String → DoAct
  | updateT : Nat → TField → DoAct
deriving DecidableEq, Repr

/-- Inverse operation of a `Command` (`undo_method` with its `undo_args`). -/
inductive UndoAct where
  | deleteT : Nat → UndoAct
  | updateU : Nat → TField → UndoAct
deriving DecidableEq, Repr

/-- The `Command` class: forward/inverse operations captured at issue time,
plus `audit_log`, which is `None` until `do()` first runs. -/
structure Command where
  doAct : DoAct
  undoAct : UndoAct
  audit_log : Option Entry
deriving DecidableEq, Repr

/-- The `TensorManager`: the dict part (`store`, id → heap reference, in
insertion order like a Python dict), the heap of `Tensor` objects ever
allocated, and the command history with its offset. -/
structure TensorManager where
  heap : List Tensor
  store : List (Nat × Nat)
  commands : List Command
  command_offset : Int
deriving DecidableEq, Repr

/-- `TensorManager()` — empty dict, no commands, offset 0. -/
def TensorManager.empty : TensorManager := ⟨[], [], [], 0⟩

/-- Python dict assignment `d[k] = v`: replace in place if the key exists
(keeping its position, like CPython), else append. -/
def dictSet (l : List (Nat × Nat)) (k v : Nat) : List (Nat × Nat) :=
  if l.any (fun p => p.1 == k) then
    l.map (fun p => if p.1 == k then (k, v) else p)
  else l ++ [(k, v)]

/-- Python `del d[k]` (the source only deletes keys that are present). -/
def dictDel (l : List (Nat × Nat)) (k : Nat) : List (Nat × Nat) :=
  l.filter (fun p => !(p.1 == k))

/-- Python list indexing `l[i]` with negative-index support; `none` models
an `IndexError`. -/
def pyGet {α : Type} (l : List α) (i : Int) : Option α :=
  if i < 0 then
    if (l.length : Int) + i < 0 then none
    else l.get? ((l.length : Int) + i).toNat
  else l.get? i.toNat

/-- Python prefix slice `l[:i]` with negative-index support. -/
def pyTake {α : Type} (l : List α) (i : Int) : List α :=
  if i < 0 then l.take ((l.length : Int) + i).toNat
  else l.take i.toNat

/-- Dict lookup `self[tensor_id]`, returning the heap reference. -/
def TensorManager.lookupRef (m : TensorManager) (tid : Nat) : Option Nat :=
  (m.store.find? (fun p => p.1 == tid)).map (fun p => p.2)

/-- The tensor value currently associated with an id (dereferencing the heap). -/
def TensorManager.getT (m : TensorManager) (tid : Nat) : Option Tensor :=
  (m.lookupRef tid).map (fun r => m.heap.getD r default)

/-- `identifiers` property: `sorted(self.keys())`. -/
def TensorManager.identifiers (m : TensorManager) : List Nat :=
  List.insertionSort (· ≤ ·) (m.store.map Prod.fst)

/-- `max(self.identifiers)` for a non-empty store (0 if empty; `add_tensor`
guards the empty case, where Python `max([])` raises `ValueError`). -/
def TensorManager.max_id (m : TensorManager) : Nat :=
  m.identifiers.foldr max 0

/-- `TensorManager.__eq__`: same size, and every key of `self` is present in
`other` with an equal (`Tensor.__eq__`, i.e. value-equal) tensor. -/
def TensorManager.eqb (a b : TensorManager) : Bool :=
  (a.store.length == b.store.length) &&
  a.store.all (fun p =>
    match b.lookupRef p.1 with
    | none => false
    | some r2 => (a.heap.getD p.2 default) == (b.heap.getD r2 default))

/-- Execute a forward operation (`Command.do`): `create_tensor` allocates a
fresh object, stores it under its id and returns the create entry
(`deepcopy` of the full data plus `action="create"`); `tensor.update`
mutates the bound heap object and returns the update entry. -/
def TensorManager.execDo (m : TensorManager) : DoAct → TensorManager × Entry
  | .createT tid c mrk ty =>
    let t : Tensor := ⟨tid, c, mrk, ty, true⟩
    let ref := m.heap.length
    ({ m with heap := m.heap ++ [t], store := dictSet m.store tid ref },
      Entry.create t)
  | .updateT ref f =>
    let t := m.heap.getD ref default
    ({ m with heap := m.heap.set ref (t.setField f) },
      Entry.update t.tensor_id f)

/-- Execute an inverse operation (`Command.undo`): `_delete_tensor` removes
the dict entry and returns `None`; `tensor.update` mutates the bound heap
object and returns the update json. -/
def TensorManager.execUndo (m : TensorManager) : UndoAct → TensorManager × Option Entry
  | .deleteT tid =>
    ({ m with store := dictDel m.store tid }, none)
  | .updateU ref f =>
    let t := m.heap.getD ref default
    ({ m with heap := m.heap.set ref (t.setField f) },
      some (Entry.update t.tensor_id f))

/-- `run_command`: clip the future if the offset is non-zero
(`commands[:offset]`), reset the offset, append the command and run it
(which records its audit entry). -/
def TensorManager.run_command (m : TensorManager) (d : DoAct) (u : UndoAct) :
    TensorManager × Entry :=
  let m1 := if m.command_offset ≠ 0 then
      { m with commands := pyTake m.commands m.command_offset, command_offset := 0 }
    else m
  let r := m1.execDo d
  ({ r.1 with commands := r.1.commands ++ [⟨d, u, some r.2⟩] }, r.2)

/-- `create_tensor`: direct insertion, not wrapped in a command. -/
def TensorManager.create_tensor (m : TensorManager) (tid : Nat) (c mrk : Pos)
    (ty : String) : TensorManager × Entry :=
  m.execDo (.createT tid c mrk ty)

/-- `add_tensor`: id is `max(self.identifiers) + 1` (raises `ValueError` on
an empty store, modelled as `none`); the command's do recreates via
`create_tensor` with `"manual"` and its undo is `_delete_tensor`. -/
def TensorManager.add_tensor (m : TensorManager) (c mrk : Pos) :
    Option (TensorManager × Entry) :=
  if m.store.isEmpty then none
  else
    let tid := m.max_id + 1
    some (m.run_command (.createT tid c mrk "manual") (.deleteT tid))

/-- `inactivate_tensor`: looks the tensor up (`KeyError`, modelled as `none`,
if absent), then runs a command whose do sets `active` to `False` and whose
undo sets `active` to `True` (the previous value is *not* captured). -/
def TensorManager.inactivate_tensor (m : TensorManager) (tid : Nat) :
    Option (TensorManager × Entry) :=
  match m.lookupRef tid with
  | none => none
  | some ref =>
    some (m.run_command (.updateT ref (.activeF false)) (.updateU ref (.activeF true)))

/-- `update_centroid`: captures the previous centroid for the undo. -/
def TensorManager.update_centroid (m : TensorManager) (tid : Nat) (pos : Pos) :
    Option (TensorManager × Entry) :=
  match m.lookupRef tid with
  | none => none
  | some ref =>
    let prev := (m.heap.getD ref default).centroid
    some (m.run_command (.updateT ref (.centroidF pos)) (.updateU ref (.centroidF prev)))

/-- `update_marker`: captures the previous marker for the undo. -/
def TensorManager.update_marker (m : TensorManager) (tid : Nat) (pos : Pos) :
    Option (TensorManager × Entry) :=
  match m.lookupRef tid with
  | none => none
  | some ref =>
    let prev := (m.heap.getD ref default).marker
    some (m.run_command (.updateT ref (.markerF pos)) (.updateU ref (.markerF prev)))

/-- `undo`: index `-1 + command_offset`; if `len(commands)` plus that index
is negative there is nothing to undo and `None` is returned with no state
change; otherwise the command's inverse runs and the offset decrements.
The returned value is the inverse's return value, which is `None` for
`_delete_tensor`.  The outer `Option` models a raised `IndexError`
(impossible while the offset invariant holds). -/
def TensorManager.undo (m : TensorManager) :
    Option (TensorManager × Option Entry) :=
  if (m.commands.length : Int) + (-1 + m.command_offset) < 0 then some (m, none)
  else
    match pyGet m.commands (-1 + m.command_offset) with
    | none => none
    | some c =>
      some ({ (m.execUndo c.undoAct).1 with
                command_offset := m.command_offset - 1 },
            (m.execUndo c.undoAct).2)

/-- `redo`: nothing to redo when the offset is non-negative (`None`, no
state change); otherwise re-runs `do()` on `commands[command_offset]`
(which re-records its audit entry) and increments the offset. -/
def TensorManager.redo (m : TensorManager) :
    Option (TensorManager × Option Entry) :=
  if 0 ≤ m.command_offset then some (m, none)
  else
    match pyGet m.commands m.command_offset with
    | none => none
    | some c =>
      some ({ (m.execDo c.doAct).1 with
                commands := (m.execDo c.doAct).1.commands.set
                  ((m.commands.length : Int) + m.command_offset).toNat
                  { c with audit_log := some (m.execDo c.doAct).2 },
                command_offset := m.command_offset + 1 },
            some (m.execDo c.doAct).2)

/-- `audit_log` property: the first `len(commands) + command_offset`
commands, i.e. the history excluding undone commands. -/
def TensorManager.audit_log (m : TensorManager) : List Command :=
  m.commands.take ((m.commands.length : Int) + m.command_offset).toNat

/-- `write_audit_log`: one line per command in the `audit_log` view, the
command's recorded audit entry (always present for an executed command). -/
def TensorManager.write_audit_log (m : TensorManager) : List Entry :=
  m.audit_log.filterMap (fun c => c.audit_log)

/-- `write_raw_tensors`: one json line per identifier (in sorted order)
whose tensor has `creation_type == "automated"`. -/
def TensorManager.write_raw_tensors (m : TensorManager) : List Tensor :=
  m.identifiers.filterMap (fun tid =>
    match m.getT tid with
    | some t => if t.creation_type == "automated" then some t else none
    | none => none)

/-- `read_raw_tensors`: `Tensor.from_json` each line (allocating a fresh
object whose `active` comes from the line) and store it under its id. -/
def TensorManager.read_raw_tensors (m : TensorManager) (lines : List Tensor) :
    TensorManager :=
  lines.foldl (fun acc t =>
    { acc with heap := acc.heap ++ [t],
               store := dictSet acc.store t.tensor_id acc.heap.length }) m

/-- Exceptions `apply_json` can raise: `KeyError` from `self[tensor_id]` on
an update of an absent id, `RuntimeError` for an unrecognized action. -/
inductive ApplyErr where
  | keyError : ApplyErr
  | runtimeError : ApplyErr
deriving DecidableEq, Repr

/-- `apply_json`: replays one parsed line directly against record state —
`update` assigns the carried field on the existing tensor's `_data`,
`create` allocates a fresh tensor from the line's data, anything else
raises `RuntimeError`. -/
def TensorManager.apply_json (m : TensorManager) : Entry → Except ApplyErr TensorManager
  | .update tid f =>
    match m.lookupRef tid with
    | none => .error .keyError
    | some ref =>
      .ok { m with heap := m.heap.set ref ((m.heap.getD ref default).setField f) }
  | .create t =>
    .ok { m with heap := m.heap ++ [t],
                 store := dictSet m.store t.tensor_id m.heap.length }
  | .other _ => .error .runtimeError

/-- `apply_audit_log`: replay the lines in order; any raise aborts. -/
def TensorManager.apply_audit_log (m : TensorManager) (lines : List Entry) :
    Except ApplyErr TensorManager :=
  lines.foldlM (fun acc e => acc.apply_json e) m

/-- The four undoable public mutations of the store. -/
inductive Op where
  | add : Pos → Pos → Op
  | update_centroid : Nat → Pos → Op
  | update_marker : Nat → Pos → Op
  | deactivate : Nat → Op
deriving DecidableEq, Repr

/-- Run one public mutation, discarding its returned audit string. -/
def TensorManager.execOp (m : TensorManager) : Op → Option TensorManager
  | .add c mrk => (m.add_tensor c mrk).map Prod.fst
  | .update_centroid tid p => (m.update_centroid tid p).map Prod.fst
  | .update_marker tid p => (m.update_marker tid p).map Prod.fst
  | .deactivate tid => (m.inactivate_tensor tid).map Prod.fst

/-- Run a sequence of public mutations; any raise aborts. -/
def TensorManager.execOps (m : TensorManager) : List Op → Option TensorManager
  | [] => some m
  | op :: ops =>
    match m.execOp op with
    | none => none
    | some m1 => m1.execOps ops

/-- Call `undo` n times, discarding return values. -/
def TensorManager.undoN (m : TensorManager) : Nat → Option TensorManager
  | 0 => some m
  | n + 1 =>
    match m.undo with
    | none => none
    | some r => r.1.undoN n

/-- The cursor invariant: the offset is at most 0 and counts no further back
than the history's length, so `audit_log` is a well-defined prefix. -/
def Inv (m : TensorManager) : Prop :=
  m.command_offset ≤ 0 ∧ 0 ≤ (m.commands.length : Int) + m.command_offset

instance (m : TensorManager) : Decidable (Inv m) := by
  unfold Inv; infer_instance


/-! ### Concrete states used by counterexamples and witnesses

`mBase` is the store reached by `create_tensor(1, (0,0), (3,5))`; the step
helpers run one public operation and keep the prior state if it raised
(each theorem separately asserts that the operation did not raise). -/

/-- Store after `create_tensor(1, (0,0), (3,5))` on a fresh manager. -/
def mBase : TensorManager :=
  (TensorManager.empty.create_tensor 1 [0, 0] [3, 5] "automated").1

/-- Run `inactivate_tensor`, keeping the state on a raise. -/
def inactD (m : TensorManager) (tid : Nat) : TensorManager :=
  ((m.inactivate_tensor tid).map Prod.fst).getD m

/-- Run `undo`, keeping the state on a raise. -/
def undoD (m : TensorManager) : TensorManager :=
  ((m.undo).map Prod.fst).getD m

/-- Store reached by `create_tensor(1,..)`, `inactivate_tensor(1)` twice,
then `undo()` once: one command is undone and tensor 1 is active again. -/
def mDD : TensorManager := undoD (inactD (inactD mBase 1) 1)

/-- Store reached by `create_tensor(1,..)` then `inactivate_tensor(1)`:
tensor 1 is inactive. -/
def m0C2 : TensorManager := inactD mBase 1

/-- Rebuild a store from the live store's snapshot and audit log
(`read_raw_tensors` then `apply_audit_log`), as in the reconstruction
protocol. -/
def replicaOf (live : TensorManager) : Except ApplyErr TensorManager :=
  (TensorManager.empty.read_raw_tensors live.write_raw_tensors).apply_audit_log
    live.write_audit_log

/-- C1.  The reconstruction protocol fails on the code: starting from the
store `create_tensor(1,(0,0),(3,5))`, the executed mutation sequence
`inactivate_tensor(1); inactivate_tensor(1); undo()` leaves tensor 1
active (the undo of the second deactivate unconditionally sets
`active=True`), but the flushed audit log still contains the first
deactivate's entry, so the replica built by `read_raw_tensors` of the
snapshot plus `apply_audit_log` of the log has tensor 1 inactive and is
not Record-set equal to the live store.  Each intermediate operation
succeeded, the replay raised no error, and `TensorManager.__eq__`
(`eqb`) returns `false`. -/
theorem claim1_snapshot_replay_fails_on_undone_deactivate :
    (mBase.inactivate_tensor 1).isSome = true ∧
    ((inactD mBase 1).inactivate_tensor 1).isSome = true ∧
    ((inactD (inactD mBase 1) 1).undo).isSome = true ∧
    (replicaOf mDD).toOption.map (fun rep => rep.eqb mDD) = some false ∧
    (mDD.getT 1).map Tensor.active = some true ∧
    (replicaOf mDD).toOption.bind (fun rep => (rep.getT 1).map Tensor.active) =
      some false := by
  decide

/-- C2.  A sequence of allowed mutations followed by the same number of
undos does not restore the Record set: on the store where tensor 1 is
already inactive (reached by `create_tensor(1,..); inactivate_tensor(1)`),
running the single operation `deactivate 1` and then `undo` once leaves
tensor 1 active, because `inactivate_tensor` hardcodes its undo as
`update("active", True)` instead of restoring the captured previous value.
`eqb` (the source's `__eq__`) between the result and the starting store is
`false`. -/
theorem claim2_undo_fails_to_restore_inactive_record :
    (mBase.inactivate_tensor 1).isSome = true ∧
    ((m0C2.execOps [Op.deactivate 1]).bind
      (fun mp => (mp.undoN 1).map (fun u => u.eqb m0C2))) = some false ∧
    ((m0C2.execOps [Op.deactivate 1]).bind
      (fun mp => (mp.undoN 1).map (fun u => (u.getT 1).map Tensor.active))) =
      some (some true) := by
  decide

/-- C3.  `undo(); redo()` is not the identity on the Record set: in the
store `mDD` (created, deactivated twice, one `undo` issued — so at least
one command is undone and not re-done, `command_offset = -1`), tensor 1 is
active; calling `undo()` then `redo()` re-executes the first deactivate
and leaves tensor 1 inactive, a different Record state.  The root cause is
the same hardcoded deactivate undo: undoing the first deactivate sets
`active=True` (it already was), and the redo re-applies `active=False`. -/
theorem claim3_undo_redo_not_identity :
    mDD.command_offset = -1 ∧
    (mDD.getT 1).map Tensor.active = some true ∧
    ((mDD.undo).bind (fun p => (p.1.redo).map (fun q => q.1.eqb mDD))) = some false ∧
    ((mDD.undo).bind
      (fun p => (p.1.redo).map (fun q => (q.1.getT 1).map Tensor.active))) =
      some (some false) := by
  decide

/-- Store reached by `create_tensor(1,..)` then `add_tensor((3,4),(5,6))`
(which creates the manual tensor 2 as an undoable command). -/
def mAdd : TensorManager :=
  ((mBase.add_tensor [3, 4] [5, 6]).map Prod.fst).getD mBase

/-- C6 counterexample.  The `undo` no-op sentinel is the Python value
`None`, but a *successful* undo of an `add_tensor` command also returns
`None` (`_delete_tensor` has no return value): on `mAdd`, `undo()` returns
the sentinel value while actually mutating the Record set (it deletes
tensor 2), so the sentinel is not distinguishable from every real result. -/
theorem claim6_counterexample :
    (mBase.add_tensor [3, 4] [5, 6]).isSome = true ∧
    (mAdd.undo).map (fun p => (p.2, p.1.eqb mAdd)) = some (none, false) := by
  decide

/-- C9 counterexample.  A snapshot line carries no `cell_id` field: the
json object written by `write_raw_tensors` for the automated tensor 1 is
`Tensor._data`, whose keys are exactly `tensor_id`, `centroid`, `marker`,
`creation_type`, `active` — `cell_id` is not among them (and the id key is
named `tensor_id`, not `id`). -/
theorem claim9_counterexample :
    mBase.write_raw_tensors = [⟨1, [0, 0], [3, 5], "automated", true⟩] ∧
    ("cell_id" ∈ Tensor.jsonKeys) = False ∧
    ("tensor_id" ∈ Tensor.jsonKeys) = True := by
  constructor
  · decide
  · constructor
    · simp [Tensor.jsonKeys]
    · simp [Tensor.jsonKeys]


/-! ### Structural lemmas about the step functions -/

lemma execDo_fst_commands (m : TensorManager) (d : DoAct) :
    (m.execDo d).1.commands = m.commands := by
  cases d <;> rfl

lemma execDo_fst_offset (m : TensorManager) (d : DoAct) :
    (m.execDo d).1.command_offset = m.command_offset := by
  cases d <;> rfl

lemma execUndo_fst_commands (m : TensorManager) (u : UndoAct) :
    (m.execUndo u).1.commands = m.commands := by
  cases u <;> rfl

lemma execUndo_fst_offset (m : TensorManager) (u : UndoAct) :
    (m.execUndo u).1.command_offset = m.command_offset := by
  cases u <;> rfl

lemma run_command_fst_offset (m : TensorManager) (d : DoAct) (u : UndoAct) :
    (m.run_command d u).1.command_offset = 0 := by
  unfold TensorManager.run_command
  split
  · cases d <;> rfl
  · rename_i h
    simp only [ne_eq, not_not] at h
    cases d <;> simpa [TensorManager.execDo] using h

lemma run_command_commands_of_ne (m : TensorManager) (d : DoAct) (u : UndoAct)
    (h : m.command_offset ≠ 0) :
    (m.run_command d u).1.commands =
      pyTake m.commands m.command_offset ++
        [⟨d, u, some (m.run_command d u).2⟩] := by
  unfold TensorManager.run_command
  rw [if_pos h]
  cases d <;> rfl

lemma run_command_commands_of_eq (m : TensorManager) (d : DoAct) (u : UndoAct)
    (h : m.command_offset = 0) :
    (m.run_command d u).1.commands =
      m.commands ++ [⟨d, u, some (m.run_command d u).2⟩] := by
  unfold TensorManager.run_command
  rw [if_neg (by omega)]
  cases d <;> rfl

lemma run_command_commands_shape (m : TensorManager) (d : DoAct) (u : UndoAct) :
    ∃ pre c, (m.run_command d u).1.commands = pre ++ [c] := by
  by_cases h : m.command_offset = 0
  · exact ⟨_, _, run_command_commands_of_eq m d u h⟩
  · exact ⟨_, _, run_command_commands_of_ne m d u h⟩

/-- Every successful public mutation is a `run_command` with the
operation's do/undo pair. -/
lemma execOp_eq_run_command (m : TensorManager) (op : Op) (m' : TensorManager)
    (h : m.execOp op = some m') :
    ∃ d u, m' = (m.run_command d u).1 := by
  cases op with
  | add c mrk =>
    simp only [TensorManager.execOp, TensorManager.add_tensor] at h
    by_cases hs : m.store.isEmpty
    · rw [if_pos hs] at h
      exact absurd h (by simp)
    · rw [if_neg hs] at h
      exact ⟨_, _, (Option.some.inj h).symm⟩
  | update_centroid tid p =>
    simp only [TensorManager.execOp, TensorManager.update_centroid] at h
    cases hl : m.lookupRef tid with
    | none => rw [hl] at h; exact absurd h (by simp)
    | some ref => rw [hl] at h; exact ⟨_, _, (Option.some.inj h).symm⟩
  | update_marker tid p =>
    simp only [TensorManager.execOp, TensorManager.update_marker] at h
    cases hl : m.lookupRef tid with
    | none => rw [hl] at h; exact absurd h (by simp)
    | some ref => rw [hl] at h; exact ⟨_, _, (Option.some.inj h).symm⟩
  | deactivate tid =>
    simp only [TensorManager.execOp, TensorManager.inactivate_tensor] at h
    cases hl : m.lookupRef tid with
    | none => rw [hl] at h; exact absurd h (by simp)
    | some ref => rw [hl] at h; exact ⟨_, _, (Option.some.inj h).symm⟩

lemma redo_of_offset_zero (m : TensorManager) (h : m.command_offset = 0) :
    m.redo = some (m, none) := by
  unfold TensorManager.redo
  rw [if_pos (by omega)]

/-- C4.  Issuing any new undoable command while the cursor is negative
truncates the history at the cursor (`commands[:command_offset]`), appends
the new command, resets the cursor to 0, and afterwards `redo` returns the
no-op sentinel `None` with the state unchanged. -/
theorem claim4_new_command_truncates_history (m : TensorManager) (op : Op)
    (m' : TensorManager) (hoff : m.command_offset < 0)
    (h : m.execOp op = some m') :
    (∃ c, m'.commands = pyTake m.commands m.command_offset ++ [c]) ∧
    m'.command_offset = 0 ∧
    m'.redo = some (m', none) := by
  obtain ⟨d, u, rfl⟩ := execOp_eq_run_command m op m' h
  refine ⟨⟨_, run_command_commands_of_ne m d u (by omega)⟩,
    run_command_fst_offset m d u, ?_⟩
  exact redo_of_offset_zero _ (run_command_fst_offset m d u)

/-- Witness for C4 at a concrete input: the store `mDD` has cursor `-1`;
issuing `deactivate 1` truncates, resets the cursor and disables redo. -/
theorem claim4_witness :
    (∃ c, (((mDD.execOp (Op.deactivate 1)).getD mDD).commands =
      pyTake mDD.commands mDD.command_offset ++ [c])) ∧
    ((mDD.execOp (Op.deactivate 1)).getD mDD).command_offset = 0 ∧
    ((mDD.execOp (Op.deactivate 1)).getD mDD).redo =
      some ((mDD.execOp (Op.deactivate 1)).getD mDD, none) :=
  claim4_new_command_truncates_history mDD (Op.deactivate 1)
    ((mDD.execOp (Op.deactivate 1)).getD mDD) (by decide) (by decide)

/-- C6 (amended).  `undo` with nothing to undo and `redo` with the cursor
at head are no-ops returning the sentinel `None` and leaving the Records,
history and cursor unchanged; a `redo` that returns `None` is always the
no-op (real redo results are audit strings, never `None`).  The original
claim's stronger statement — that the sentinel is distinguishable from
*any* real result — fails for `undo` (see the counterexample): a
successful undo of an `add` command also returns `None`. -/
theorem claim6_noop_sentinels (m : TensorManager) :
    ((m.commands.length : Int) + (-1 + m.command_offset) < 0 →
      m.undo = some (m, none)) ∧
    (0 ≤ m.command_offset → m.redo = some (m, none)) ∧
    (∀ p, m.redo = some p → p.2 = none → p = (m, none)) := by
  refine ⟨?_, ?_, ?_⟩
  · intro h
    unfold TensorManager.undo
    rw [if_pos h]
  · intro h
    unfold TensorManager.redo
    rw [if_pos h]
  · intro p hp hn
    unfold TensorManager.redo at hp
    split at hp
    · exact (Option.some.inj hp).symm
    · rename_i hneg
      cases hg : pyGet m.commands m.command_offset with
      | none => rw [hg] at hp; exact absurd hp (by simp)
      | some c =>
        rw [hg] at hp
        have := (Option.some.inj hp)
        rw [← this] at hn
        exact absurd hn (by simp)

/-- Witness for C6 at a concrete input: on the empty manager both `undo`
and `redo` return the sentinel with the state unchanged. -/
theorem claim6_witness :
    TensorManager.empty.undo = some (TensorManager.empty, none) ∧
    TensorManager.empty.redo = some (TensorManager.empty, none) :=
  ⟨(claim6_noop_sentinels TensorManager.empty).1 (by decide),
   (claim6_noop_sentinels TensorManager.empty).2.1 (by decide)⟩

/-- C7.  `inactivate_tensor`, `update_centroid` and `update_marker` on an
id that is not in the store raise `KeyError` at the initial
`self[tensor_id]` lookup (modelled by `none`), before any mutation of
Records, history or cursor — the error propagates, it is not a silent
no-op. -/
theorem claim7_missing_id_errors (m : TensorManager) (tid : Nat) (p : Pos)
    (h : m.lookupRef tid = none) :
    m.inactivate_tensor tid = none ∧
    m.update_centroid tid p = none ∧
    m.update_marker tid p = none := by
  unfold TensorManager.inactivate_tensor TensorManager.update_centroid
    TensorManager.update_marker
  rw [h]
  exact ⟨rfl, rfl, rfl⟩

/-- Witness for C7 at a concrete input: id 2 is absent from `mBase`. -/
theorem claim7_witness :
    mBase.inactivate_tensor 2 = none ∧
    mBase.update_centroid 2 [9, 9] = none ∧
    mBase.update_marker 2 [9, 9] = none :=
  claim7_missing_id_errors mBase 2 [9, 9] (by decide)

/-- C10.  Every public operation preserves the cursor invariant
(`command_offset ≤ 0` and `commands.length + command_offset ≥ 0`), and
under it the `audit_log` view is a well-defined prefix of the history. -/
theorem claim10_ops_preserve_cursor_invariant (m : TensorManager)
    (hm : Inv m) :
    (∀ tid c mrk ty, Inv (m.create_tensor tid c mrk ty).1) ∧
    (∀ op m', m.execOp op = some m' → Inv m') ∧
    (∀ r, m.undo = some r → Inv r.1) ∧
    (∀ r, m.redo = some r → Inv r.1) ∧
    m.audit_log <+: m.commands := by
  obtain ⟨h1, h2⟩ := hm
  refine ⟨?_, ?_, ?_, ?_, ?_⟩
  · intro tid c mrk ty
    constructor
    · rw [show (m.create_tensor tid c mrk ty).1.command_offset
          = m.command_offset from rfl]
      exact h1
    · rw [show (m.create_tensor tid c mrk ty).1.command_offset
          = m.command_offset from rfl,
        show (m.create_tensor tid c mrk ty).1.commands = m.commands from rfl]
      exact h2
  · intro op m' h
    obtain ⟨d, u, rfl⟩ := execOp_eq_run_command m op m' h
    obtain ⟨pre, c, he⟩ := run_command_commands_shape m d u
    constructor
    · rw [run_command_fst_offset]
    · rw [run_command_fst_offset, he]
      have hlen : (pre ++ [c]).length = pre.length + 1 := by simp
      rw [hlen]
      push_cast
      omega
  · intro r h
    unfold TensorManager.undo at h
    split at h
    · rw [← Option.some.inj h]
      exact ⟨h1, h2⟩
    · rename_i hge
      cases hg : pyGet m.commands (-1 + m.command_offset) with
      | none => rw [hg] at h; exact absurd h (by simp)
      | some c =>
        rw [hg] at h
        rw [← Option.some.inj h]
        constructor
        · simp only [execUndo_fst_offset]
          omega
        · simp only [execUndo_fst_commands]
          omega
  · intro r h
    unfold TensorManager.redo at h
    split at h
    · rw [← Option.some.inj h]
      exact ⟨h1, h2⟩
    · rename_i hneg
      cases hg : pyGet m.commands m.command_offset with
      | none => rw [hg] at h; exact absurd h (by simp)
      | some c =>
        rw [hg] at h
        rw [← Option.some.inj h]
        constructor
        · simp only []
          omega
        · simp only [List.length_set, execDo_fst_commands]
          omega
  · exact ⟨_, List.take_append_drop _ _⟩

/-- Witness for C10 at a concrete input: the invariant holds for `mDD`
and is preserved by a concrete `create_tensor` call, and `mDD`'s audit
view is a prefix of its history. -/
theorem claim10_witness :
    Inv (mDD.create_tensor 7 [1, 1] [2, 2] "automated").1 ∧
    mDD.audit_log <+: mDD.commands :=
  ⟨(claim10_ops_preserve_cursor_invariant mDD (by decide)).1 7 [1, 1] [2, 2]
      "automated",
   (claim10_ops_preserve_cursor_invariant mDD (by decide)).2.2.2.2⟩

/-! ### Lemmas about the dict and heap primitives -/

lemma le_foldr_max {l : List Nat} {k : Nat} (h : k ∈ l) : k ≤ l.foldr max 0 := by
  induction l with
  | nil => cases h
  | cons x xs ih =>
    rcases List.mem_cons.mp h with rfl | hx
    · exact le_max_left _ _
    · exact le_trans (ih hx) (le_max_right _ _)

lemma mem_keys_le_max_id {m : TensorManager} {q : Nat × Nat} (h : q ∈ m.store) :
    q.1 ≤ m.max_id := by
  have h1 : q.1 ∈ m.store.map Prod.fst := List.mem_map.mpr ⟨q, h, rfl⟩
  have h2 : q.1 ∈ m.identifiers :=
    (List.mem_insertionSort (· ≤ ·)).mpr h1
  exact le_foldr_max h2

lemma find?_append_of_none {p : Nat × Nat → Bool} {l1 l2 : List (Nat × Nat)}
    (h : l1.find? p = none) : (l1 ++ l2).find? p = l2.find? p := by
  rw [List.find?_append, h, Option.none_or]

/-- If no key of `l` equals `k` then looking `k` up after a `dictSet`
finds exactly the appended pair. -/
lemma find?_dictSet_fresh {l : List (Nat × Nat)} {k v : Nat}
    (h : ∀ q ∈ l, (q.1 == k) = false) :
    (dictSet l k v).find? (fun p => p.1 == k) = some (k, v) := by
  have hany : l.any (fun p => p.1 == k) = false := by
    rw [List.any_eq_false]
    intro q hq
    simp [h q hq]
  have hnone : l.find? (fun p => p.1 == k) = none :=
    List.find?_eq_none.mpr (fun q hq => by simp [h q hq])
  unfold dictSet
  rw [if_neg (by simp [hany]), find?_append_of_none hnone]
  simp [List.find?]

/-- `dictSet` of a present key: the first hit is the replaced pair. -/
lemma find?_dictSet_present {l : List (Nat × Nat)} {k v : Nat}
    (h : l.any (fun p => p.1 == k) = true) :
    (dictSet l k v).find? (fun p => p.1 == k) = some (k, v) := by
  unfold dictSet
  rw [if_pos h]
  induction l with
  | nil => simp at h
  | cons x xs ih =>
    by_cases hx : (x.1 == k) = true
    · rw [List.map_cons, if_pos hx, List.find?_cons_of_pos _ (by simp)]
    · rw [List.map_cons, if_neg hx, List.find?_cons_of_neg _ (by simpa using hx)]
      refine ih ?_
      simp only [List.any_cons, Bool.or_eq_true] at h
      exact h.resolve_left hx

lemma find?_dictSet (l : List (Nat × Nat)) (k v : Nat) :
    (dictSet l k v).find? (fun p => p.1 == k) = some (k, v) := by
  by_cases h : l.any (fun p => p.1 == k) = true
  · exact find?_dictSet_present h
  · refine find?_dictSet_fresh ?_
    intro q hq
    cases hqk : (q.1 == k) with
    | false => rfl
    | true => exact absurd (List.any_eq_true.mpr ⟨q, hq, hqk⟩) h

lemma getD_concat_length (l : List α) (a d : α) : (l ++ [a]).getD l.length d = a := by
  rw [List.getD_eq_getD_get? (l ++ [a]) d l.length]
  have h : (l ++ [a]).get? l.length = some a := by
    simp [List.get?_eq_getElem?, List.getElem?_concat_length]
  rw [h]
  rfl

lemma getD_set_self (l : List α) (i : Nat) (a d : α) (h : i < l.length) :
    (l.set i a).getD i d = a := by
  rw [List.getD_eq_getD_get? (l.set i a) d i, List.get?_set_eq_of_lt a h]
  rfl

lemma getD_append_left (l1 l2 : List α) (i : Nat) (d : α) (h : i < l1.length) :
    (l1 ++ l2).getD i d = l1.getD i d := by
  rw [List.getD_eq_getD_get? (l1 ++ l2) d i, List.getD_eq_getD_get? l1 d i,
    List.get?_append h]

lemma pyGet_concat_neg_one (l : List α) (x : α) : pyGet (l ++ [x]) (-1) = some x := by
  unfold pyGet
  rw [if_pos (by norm_num)]
  rw [if_neg (by simp only [List.length_append, List.length_cons,
    List.length_nil]; push_cast; omega)]
  have h1 : (((l ++ [x]).length : Int) + -1).toNat = l.length := by
    simp only [List.length_append, List.length_cons, List.length_nil]
    push_cast
    omega
  rw [h1]
  simp [List.get?_eq_getElem?, List.getElem?_concat_length]

/-- C8.  `apply_audit_log` replays entries directly against Record state
via `apply_json`: a `create` entry instantiates a new Record from the
entry's data (retrievable under its id afterwards); an `update` entry
mutates exactly the named field of the existing Record with that id; and
an entry with any other action value raises `RuntimeError` (a fatal
format error, distinct from the `KeyError` of a missing id). -/
theorem claim8_apply_json_spec (m : TensorManager) (t : Tensor)
    (tid ref : Nat) (f : TField) (s : String) :
    (∃ m1, m.apply_json (Entry.create t) = .ok m1 ∧
      m1.getT t.tensor_id = some t) ∧
    (m.lookupRef tid = some ref → ref < m.heap.length →
      ∃ m1, m.apply_json (Entry.update tid f) = .ok m1 ∧
        m1.getT tid = some ((m.heap.getD ref default).setField f)) ∧
    (s ≠ "create" → s ≠ "update" →
      m.apply_json (Entry.other s) = .error .runtimeError) := by
  refine ⟨?_, ?_, ?_⟩
  · refine ⟨{ m with
      heap := m.heap ++ [t],
      store := dictSet m.store t.tensor_id m.heap.length }, rfl, ?_⟩
    unfold TensorManager.getT TensorManager.lookupRef
    dsimp only
    rw [find?_dictSet]
    simp only [Option.map_some']
    rw [getD_concat_length]
  · intro hl href
    refine ⟨{ m with
      heap := m.heap.set ref ((m.heap.getD ref default).setField f) }, ?_, ?_⟩
    · simp only [TensorManager.apply_json]
      rw [hl]
    · unfold TensorManager.getT TensorManager.lookupRef
      dsimp only
      unfold TensorManager.lookupRef at hl
      cases hf : m.store.find? (fun p => p.1 == tid) with
      | none =>
        rw [hf] at hl
        exact absurd hl (by simp)
      | some q =>
        rw [hf] at hl
        simp only [Option.map_some'] at hl
        have hq : q.2 = ref := Option.some.inj hl
        simp only [Option.map_some']
        rw [hq, getD_set_self _ _ _ _ href]
  · intro _ _
    rfl

/-- Witness for C8 at concrete inputs on `mBase`: a create entry for a new
tensor 2, an update entry for tensor 1, and a `"delete"` action. -/
theorem claim8_witness :
    (∃ m1, mBase.apply_json (Entry.create ⟨2, [1, 1], [2, 2], "manual", true⟩)
        = .ok m1 ∧ m1.getT 2 = some ⟨2, [1, 1], [2, 2], "manual", true⟩) ∧
    (∃ m1, mBase.apply_json (Entry.update 1 (TField.activeF false)) = .ok m1 ∧
      m1.getT 1 = some ((mBase.heap.getD 0 default).setField
        (TField.activeF false))) ∧
    mBase.apply_json (Entry.other "delete") = .error .runtimeError :=
  ⟨(claim8_apply_json_spec mBase ⟨2, [1, 1], [2, 2], "manual", true⟩ 1 0
      (TField.activeF false) "delete").1,
   (claim8_apply_json_spec mBase ⟨2, [1, 1], [2, 2], "manual", true⟩ 1 0
      (TField.activeF false) "delete").2.1 (by decide) (by decide),
   (claim8_apply_json_spec mBase ⟨2, [1, 1], [2, 2], "manual", true⟩ 1 0
      (TField.activeF false) "delete").2.2 (by decide) (by decide)⟩

/-! ### Lemmas for `add_tensor` (C5) -/

lemma find?_none_of_fresh {l : List (Nat × Nat)} {k : Nat}
    (h : ∀ q ∈ l, (q.1 == k) = false) :
    l.find? (fun p => p.1 == k) = none :=
  List.find?_eq_none.mpr (fun q hq => by simp [h q hq])

lemma dictSet_fresh_append {l : List (Nat × Nat)} {k v : Nat}
    (h : ∀ q ∈ l, (q.1 == k) = false) :
    dictSet l k v = l ++ [(k, v)] := by
  unfold dictSet
  rw [if_neg]
  rw [Bool.not_eq_true, List.any_eq_false]
  intro q hq
  simp [h q hq]

lemma dictDel_append_fresh {l : List (Nat × Nat)} {k v : Nat}
    (h : ∀ q ∈ l, (q.1 == k) = false) :
    dictDel (l ++ [(k, v)]) k = l := by
  unfold dictDel
  rw [List.filter_append]
  have h1 : l.filter (fun p => !(p.1 == k)) = l :=
    List.filter_eq_self.mpr (fun q hq => by simp [h q hq])
  have h2 : [(k, v)].filter (fun p : Nat × Nat => !(p.1 == k)) = [] := by
    simp
  rw [h1, h2, List.append_nil]

lemma run_command_fst_store_create (m : TensorManager) (tid : Nat)
    (c mrk : Pos) (ty : String) (u : UndoAct) :
    (m.run_command (.createT tid c mrk ty) u).1.store =
      dictSet m.store tid m.heap.length := by
  unfold TensorManager.run_command
  split <;> rfl

lemma run_command_fst_heap_create (m : TensorManager) (tid : Nat)
    (c mrk : Pos) (ty : String) (u : UndoAct) :
    (m.run_command (.createT tid c mrk ty) u).1.heap =
      m.heap ++ [⟨tid, c, mrk, ty, true⟩] := by
  unfold TensorManager.run_command
  split <;> rfl

lemma run_command_snd_create (m : TensorManager) (tid : Nat)
    (c mrk : Pos) (ty : String) (u : UndoAct) :
    (m.run_command (.createT tid c mrk ty) u).2 =
      Entry.create ⟨tid, c, mrk, ty, true⟩ := by
  unfold TensorManager.run_command
  split <;> rfl

lemma run_command_commands_shape' (m : TensorManager) (d : DoAct) (u : UndoAct) :
    ∃ pre, (m.run_command d u).1.commands =
      pre ++ [⟨d, u, some (m.run_command d u).2⟩] := by
  by_cases h : m.command_offset = 0
  · exact ⟨_, run_command_commands_of_eq m d u h⟩
  · exact ⟨_, run_command_commands_of_ne m d u h⟩

/-- C5.  On a non-empty store, `add_tensor` assigns the id
`max(identifiers) + 1`, inserts a Record with `creation_type = "manual"`
(and `active = true`) and returns its create entry, appends an undoable
command carrying the matching do/undo pair, with cursor reset to 0;
`undo` then removes exactly that Record (restoring the dict to its
previous key set) and `redo` re-creates it with the same field values.
On the empty store the operation fails (`max([])` raises `ValueError`). -/
theorem claim5_add_tensor_spec (m : TensorManager) (c mrk : Pos) :
    (m.store = [] → m.add_tensor c mrk = none) ∧
    (m.store ≠ [] →
      ∃ m1, m.add_tensor c mrk =
          some (m1, Entry.create ⟨m.max_id + 1, c, mrk, "manual", true⟩) ∧
        m1.getT (m.max_id + 1) =
          some ⟨m.max_id + 1, c, mrk, "manual", true⟩ ∧
        m1.command_offset = 0 ∧
        (∃ pre e, m1.commands = pre ++
          [⟨DoAct.createT (m.max_id + 1) c mrk "manual",
            UndoAct.deleteT (m.max_id + 1), some e⟩]) ∧
        ∃ m2, m1.undo = some (m2, none) ∧
          m2.getT (m.max_id + 1) = none ∧ m2.store = m.store ∧
          ∃ m3 rv, m2.redo = some (m3, rv) ∧
            m3.getT (m.max_id + 1) =
              some ⟨m.max_id + 1, c, mrk, "manual", true⟩) := by
  constructor
  · intro h
    simp [TensorManager.add_tensor, h]
  · intro hne
    have hisEmpty : m.store.isEmpty = false := by
      cases hs : m.store with
      | nil => exact absurd hs hne
      | cons a l => rfl
    set tid := m.max_id + 1 with htid
    set t : Tensor := ⟨tid, c, mrk, "manual", true⟩ with ht
    have hfresh : ∀ q ∈ m.store, (q.1 == tid) = false := by
      intro q hq
      have hle := mem_keys_le_max_id hq
      simp only [beq_eq_false_iff_ne, ne_eq, htid]
      omega
    set d : DoAct := .createT tid c mrk "manual" with hd
    set u : UndoAct := .deleteT tid with hu
    have hadd : m.add_tensor c mrk = some (m.run_command d u) := by
      unfold TensorManager.add_tensor
      rw [if_neg (by simp [hisEmpty])]
    set m1 : TensorManager := (m.run_command d u).1 with hm1
    have hsnd : (m.run_command d u).2 = Entry.create t :=
      run_command_snd_create m tid c mrk "manual" u
    have hstore1 : m1.store = m.store ++ [(tid, m.heap.length)] := by
      rw [hm1, run_command_fst_store_create, dictSet_fresh_append hfresh]
    have hheap1 : m1.heap = m.heap ++ [t] := by
      rw [hm1, run_command_fst_heap_create]
    have hoff1 : m1.command_offset = 0 := run_command_fst_offset m d u
    obtain ⟨pre, hpre⟩ := run_command_commands_shape' m d u
    rw [hsnd] at hpre
    have hcmds1 : m1.commands = pre ++ [⟨d, u, some (Entry.create t)⟩] := hpre
    set cmd : Command := ⟨d, u, some (Entry.create t)⟩ with hcmd
    have hget1 : m1.getT tid = some t := by
      unfold TensorManager.getT TensorManager.lookupRef
      rw [hstore1, find?_append_of_none (find?_none_of_fresh hfresh)]
      rw [show List.find? (fun p => p.1 == tid) [(tid, m.heap.length)] =
        some (tid, m.heap.length) from by simp [List.find?]]
      simp only [Option.map_some']
      rw [hheap1, getD_concat_length]
    have hcond : ¬ ((m1.commands.length : Int) + (-1 + m1.command_offset) < 0) := by
      rw [hoff1, hcmds1]
      simp only [List.length_append, List.length_cons, List.length_nil]
      push_cast
      omega
    have hpg1 : pyGet m1.commands (-1 + m1.command_offset) = some cmd := by
      rw [hoff1, hcmds1]
      have h0 : (-1 : Int) + 0 = -1 := by norm_num
      rw [h0]
      exact pyGet_concat_neg_one _ _
    have hundo : m1.undo = some (⟨m1.heap, dictDel m1.store tid, m1.commands,
        m1.command_offset - 1⟩, none) := by
      unfold TensorManager.undo
      rw [if_neg hcond, hpg1]
      rfl
    set m2 : TensorManager :=
      ⟨m1.heap, dictDel m1.store tid, m1.commands, m1.command_offset - 1⟩ with hm2
    have hstore2 : m2.store = m.store := by
      show dictDel m1.store tid = m.store
      rw [hstore1, dictDel_append_fresh hfresh]
    have hget2 : m2.getT tid = none := by
      unfold TensorManager.getT TensorManager.lookupRef
      rw [show m2.store = m.store from hstore2, find?_none_of_fresh hfresh]
      rfl
    have hoff2 : m2.command_offset = -1 := by
      show m1.command_offset - 1 = -1
      rw [hoff1]
      norm_num
    have hcmds2 : m2.commands = pre ++ [cmd] := hcmds1
    have hcond2 : ¬ (0 ≤ m2.command_offset) := by
      rw [hoff2]
      norm_num
    have hpg2 : pyGet m2.commands m2.command_offset = some cmd := by
      rw [hoff2, hcmds2]
      exact pyGet_concat_neg_one _ _
    have hredo : m2.redo = some (⟨m2.heap ++ [t],
        dictSet m2.store tid m2.heap.length,
        m2.commands.set ((m2.commands.length : Int) + m2.command_offset).toNat
          ⟨d, u, some (Entry.create t)⟩,
        m2.command_offset + 1⟩, some (Entry.create t)) := by
      unfold TensorManager.redo
      rw [if_neg hcond2, hpg2]
      rfl
    have hget3 : (⟨m2.heap ++ [t], dictSet m2.store tid m2.heap.length,
        m2.commands.set ((m2.commands.length : Int) + m2.command_offset).toNat
          ⟨d, u, some (Entry.create t)⟩,
        m2.command_offset + 1⟩ : TensorManager).getT tid = some t := by
      unfold TensorManager.getT TensorManager.lookupRef
      dsimp only
      rw [find?_dictSet]
      simp only [Option.map_some']
      rw [getD_concat_length]
    have hpair : m.run_command d u = (m1, Entry.create t) := by
      rw [← hsnd]
    refine ⟨m1, ?_, hget1, hoff1, ⟨pre, Entry.create t, hcmds1⟩, m2, hundo,
      hget2, hstore2, _, some (Entry.create t), hredo, hget3⟩
    rw [hadd, hpair]

/-- Store with identifiers `{1, 5}`, as in the spec's example for `add`. -/
def mW5 : TensorManager :=
  ((TensorManager.empty.create_tensor 1 [0, 0] [3, 5] "automated").1.create_tensor
    5 [4, 0] [7, 5] "automated").1

/-- Witness for C5 at concrete inputs: on the empty store `add_tensor`
fails; on the store with ids `{1, 5}` it assigns id 6 with the full
add/undo/redo round-trip. -/
theorem claim5_witness :
    TensorManager.empty.add_tensor [3, 4] [5, 6] = none ∧
    (mW5.store ≠ [] ∧
      ∃ m1, mW5.add_tensor [3, 4] [5, 6] =
          some (m1, Entry.create ⟨6, [3, 4], [5, 6], "manual", true⟩) ∧
        m1.getT 6 = some ⟨6, [3, 4], [5, 6], "manual", true⟩ ∧
        m1.command_offset = 0 ∧
        (∃ pre e, m1.commands = pre ++
          [⟨DoAct.createT 6 [3, 4] [5, 6] "manual",
            UndoAct.deleteT 6, some e⟩]) ∧
        ∃ m2, m1.undo = some (m2, none) ∧
          m2.getT 6 = none ∧ m2.store = mW5.store ∧
          ∃ m3 rv, m2.redo = some (m3, rv) ∧
            m3.getT 6 = some ⟨6, [3, 4], [5, 6], "manual", true⟩) :=
  ⟨(claim5_add_tensor_spec TensorManager.empty [3, 4] [5, 6]).1 rfl,
   ⟨by decide, (claim5_add_tensor_spec mW5 [3, 4] [5, 6]).2 (by decide)⟩⟩

/-- C9 (amended).  `write_raw_tensors` writes exactly the Records whose
`creation_type` is `"automated"` (manual Records are omitted), one json
object per Record; each object's keys are those of `Tensor._data` —
`tensor_id`, `centroid`, `marker`, `creation_type`, `active` — so there is
no `cell_id` field and the identifier key is named `tensor_id`, not `id`
(amending the claimed field set, which the counterexample refutes). -/
theorem claim9_write_raw_tensors_spec (m : TensorManager) (t : Tensor) :
    (t ∈ m.write_raw_tensors ↔
      ∃ tid, m.getT tid = some t ∧ t.creation_type = "automated") ∧
    "cell_id" ∉ Tensor.jsonKeys ∧ "tensor_id" ∈ Tensor.jsonKeys := by
  refine ⟨?_, by simp [Tensor.jsonKeys], by simp [Tensor.jsonKeys]⟩
  unfold TensorManager.write_raw_tensors
  rw [List.mem_filterMap]
  constructor
  · rintro ⟨tid, htid, hg⟩
    cases hget : m.getT tid with
    | none =>
      rw [hget] at hg
      simp at hg
    | some t' =>
      rw [hget] at hg
      simp at hg
      obtain ⟨hc, rfl⟩ := hg
      exact ⟨tid, hget, hc⟩
  · rintro ⟨tid, hget, hc⟩
    refine ⟨tid, ?_, ?_⟩
    · have hget' := hget
      unfold TensorManager.getT TensorManager.lookupRef at hget'
      cases hf : m.store.find? (fun p => p.1 == tid) with
      | none =>
        rw [hf] at hget'
        simp at hget'
      | some q =>
        have hmem := List.mem_of_find?_eq_some hf
        have hpred := List.find?_some hf
        have hmap : tid ∈ m.store.map Prod.fst :=
          List.mem_map.mpr ⟨q, hmem, by simpa using hpred⟩
        exact (List.mem_insertionSort (· ≤ ·)).mpr hmap
    · simp only [hget]
      rw [if_pos (by simp [hc])]

/-- Witness for C9's amended theorem at a concrete input: the automated
tensor 1 of `mBase` is written by `write_raw_tensors`. -/
theorem claim9_witness :
    (⟨1, [0, 0], [3, 5], "automated", true⟩ : Tensor) ∈ mBase.write_raw_tensors :=
  (claim9_write_raw_tensors_spec mBase _).1.mpr ⟨1, by decide, rfl⟩

end LeafTensors
